import Mathlib

/-!
Shallow embedding of the backtesting engine of `src/core/backtesting/engine.py`
and of the built-in strategies of `src/core/backtesting/strategies.py`.

Modelling conventions:
* Python `Decimal` values (prices, cash, commissions, pnl) are modelled as
  exact rationals `ℚ`.  `Decimal(str(x))` applied to the float commission
  rate is modelled as the exact decimal rational the `str` round-trip
  produces (e.g. `0.0015 ↦ 3/2000`), which is the exact value the code
  computes with.
* Dates are modelled as integers `ℤ` (only their ordering matters).
* Python `None` on an optional field is `Option.none`.
* Python mutation is modelled by explicit state passing: each method on
  `Portfolio` returns the updated portfolio together with its return value.
* The truthiness test `if p.pnl` on an `Optional[Decimal]` is false exactly
  when the value is `None` or equal to zero; `truthyQ` reproduces this.
* Python dictionaries returned to callers (`get_statistics`) are modelled as
  association lists `List (String × ℚ)` so that key-presence is observable.
-/

namespace QuantStock

/-- `class Position` of engine.py: one open or closed holding. -/
structure Position where
  ticker : String
  entry_date : ℤ
  entry_price : ℚ
  shares : ℤ
  position_type : String
  exit_date : Option ℤ
  exit_price : Option ℚ
  pnl : Option ℚ
  pnl_pct : Option ℚ
deriving DecidableEq

/-- `Position.__init__`: exit fields start unset (`None`). -/
def Position.make (ticker : String) (entry_date : ℤ) (entry_price : ℚ)
    (shares : ℤ) (position_type : String) : Position :=
  { ticker := ticker, entry_date := entry_date, entry_price := entry_price,
    shares := shares, position_type := position_type,
    exit_date := none, exit_price := none, pnl := none, pnl_pct := none }

/-- `Position.close(exit_date, exit_price)`: records the exit and recomputes
pnl and pnl_pct from the entry fields (LONG and SHORT formulas as in the
source).  The Python method mutates in place; here it returns the updated
position. -/
def Position.close (p : Position) (exit_date : ℤ) (exit_price : ℚ) : Position :=
  if p.position_type == "LONG" then
    { p with
      exit_date := some exit_date,
      exit_price := some exit_price,
      pnl := some ((exit_price - p.entry_price) * (p.shares : ℚ)),
      pnl_pct := some ((exit_price - p.entry_price) / p.entry_price) }
  else
    { p with
      exit_date := some exit_date,
      exit_price := some exit_price,
      pnl := some ((p.entry_price - exit_price) * (p.shares : ℚ)),
      pnl_pct := some ((p.entry_price - exit_price) / p.entry_price) }

/-- `Position.get_value(current_price)`. -/
def Position.get_value (p : Position) (current_price : ℚ) : ℚ :=
  if p.position_type == "LONG" then current_price * (p.shares : ℚ)
  else (p.entry_price * 2 - current_price) * (p.shares : ℚ)

/-- `class Portfolio` of engine.py.  The equity curve rows are
`(date, total_value, cash, number of open positions)`; the recorded total
value is `Option ℚ`, since the engine computes it over a current-price
dictionary that may contain `Decimal('NaN')` entries and then a quiet NaN
(`none`, recorded as `float('nan')`) propagates through the sum. -/
structure Portfolio where
  initial_capital : ℚ
  cash : ℚ
  commission_rate : ℚ
  positions : List Position
  closed_positions : List Position
  equity_curve : List (ℤ × Option ℚ × ℚ × ℕ)
deriving DecidableEq

/-- `Portfolio.__init__(initial_capital, commission_rate)`. -/
def Portfolio.init (initial_capital : ℚ) (commission_rate : ℚ) : Portfolio :=
  { initial_capital := initial_capital, cash := initial_capital,
    commission_rate := commission_rate, positions := [],
    closed_positions := [], equity_curve := [] }

/-- `Portfolio.buy(ticker, date, price, shares)`: rejected (`none`, no state
change) iff `cost + commission > cash`; otherwise a fresh LONG position is
appended to the open list and cash decreases by the total cost. -/
def Portfolio.buy (pf : Portfolio) (ticker : String) (d : ℤ) (price : ℚ)
    (shares : ℤ) : Portfolio × Option Position :=
  let cost := price * (shares : ℚ)
  let commission := cost * pf.commission_rate
  let total_cost := cost + commission
  if total_cost > pf.cash then (pf, none)
  else
    let position := Position.make ticker d price shares "LONG"
    ({ pf with
       positions := pf.positions ++ [position],
       cash := pf.cash - total_cost }, some position)

/-- `shares if shares else position.shares` of `Portfolio.sell`: the Python
truthiness of the optional `shares` argument (both `None` and `0` fall back
to the whole position). -/
def sharesToSell (shares : Option ℤ) (position : Position) : ℤ :=
  match shares with
  | some s => if s == 0 then position.shares else s
  | none => position.shares

/-- `self.positions.remove(position)` where `position` is the first element
whose ticker matches: removes exactly that element. -/
def removeFirstTicker (ps : List Position) (t : String) : List Position :=
  match ps with
  | [] => []
  | p :: rest => if p.ticker == t then rest else p :: removeFirstTicker rest t

/-- `Portfolio.sell(ticker, date, price, shares=None)`: finds the first open
position for the ticker (`next(...)`); rejected if none exists or if the
requested share count exceeds the position's shares.  On success the whole
position is closed at the exit price, cash grows by the net proceeds, and the
position moves from the open list to the closed list. -/
def Portfolio.sell (pf : Portfolio) (ticker : String) (d : ℤ) (price : ℚ)
    (shares : Option ℤ) : Portfolio × Option Position :=
  match pf.positions.find? (fun p => p.ticker == ticker) with
  | none => (pf, none)
  | some position =>
    let shares_to_sell := sharesToSell shares position
    if shares_to_sell > position.shares then (pf, none)
    else
      let proceeds := price * (shares_to_sell : ℚ)
      let commission := proceeds * pf.commission_rate
      let net_proceeds := proceeds - commission
      let closed := position.close d price
      ({ pf with
         cash := pf.cash + net_proceeds,
         positions := removeFirstTicker pf.positions ticker,
         closed_positions := pf.closed_positions ++ [closed] }, some closed)

/-- `Portfolio.get_total_value(current_prices)`: cash plus the value of the
open positions whose ticker has a current price. -/
def Portfolio.get_total_value (pf : Portfolio)
    (current_prices : List (String × ℚ)) : ℚ :=
  pf.positions.foldl
    (fun acc p =>
      match current_prices.lookup p.ticker with
      | some price => acc + p.get_value price
      | none => acc)
    pf.cash

/-- Python truthiness of an `Optional[Decimal]`: false for `None` and for
zero. -/
def truthyQ (o : Option ℚ) : Bool :=
  match o with
  | none => false
  | some v => v != 0

/-- `Portfolio.get_statistics()`, as the association list of the returned
dictionary.  Note that the zero-closed-positions branch returns eight keys
while the other branch returns ten. -/
def Portfolio.get_statistics (pf : Portfolio) : List (String × ℚ) :=
  if pf.closed_positions.isEmpty then
    [("total_trades", 0), ("winning_trades", 0), ("losing_trades", 0),
     ("win_rate", 0), ("total_pnl", 0), ("avg_pnl", 0), ("avg_win", 0),
     ("avg_loss", 0)]
  else
    let winning := pf.closed_positions.filter
      (fun p => truthyQ p.pnl && decide (0 < p.pnl.getD 0))
    let losing := pf.closed_positions.filter
      (fun p => truthyQ p.pnl && decide (p.pnl.getD 0 ≤ 0))
    let total_pnl :=
      ((pf.closed_positions.filter (fun p => truthyQ p.pnl)).map
        (fun p => p.pnl.getD 0)).sum
    let avg_pnl := total_pnl / (pf.closed_positions.length : ℚ)
    let avg_win :=
      if winning.isEmpty then 0
      else (winning.map (fun p => p.pnl.getD 0)).sum / (winning.length : ℚ)
    let avg_loss :=
      if losing.isEmpty then 0
      else (losing.map (fun p => p.pnl.getD 0)).sum / (losing.length : ℚ)
    [("total_trades", (pf.closed_positions.length : ℚ)),
     ("winning_trades", (winning.length : ℚ)),
     ("losing_trades", (losing.length : ℚ)),
     ("win_rate", (winning.length : ℚ) / (pf.closed_positions.length : ℚ)),
     ("total_pnl", total_pnl),
     ("total_pnl_pct", total_pnl / pf.initial_capital),
     ("avg_pnl", avg_pnl),
     ("avg_win", avg_win),
     ("avg_loss", avg_loss),
     ("profit_factor", if avg_loss = 0 then 0 else |avg_win / avg_loss|)]

/-! ### Sequences of portfolio operations

Used to state the portfolio invariants quantified over "every sequence of
`Portfolio.buy` and `Portfolio.sell` calls". -/

/-- One call to `Portfolio.buy` or `Portfolio.sell`. -/
inductive TradeOp where
  | buy (ticker : String) (d : ℤ) (price : ℚ) (shares : ℤ)
  | sell (ticker : String) (d : ℤ) (price : ℚ) (shares : Option ℤ)
deriving DecidableEq

/-- Execute one call against the portfolio (the returned position is
discarded; only the state matters for the invariants). -/
def applyOp (pf : Portfolio) (op : TradeOp) : Portfolio :=
  match op with
  | .buy t d p s => (pf.buy t d p s).1
  | .sell t d p s => (pf.sell t d p s).1

/-- Execute a sequence of calls in order. -/
def applyOps (pf : Portfolio) (ops : List TradeOp) : Portfolio :=
  ops.foldl applyOp pf

/-- The call's price argument is non-negative and so is its share argument
(for `sell`, when one is passed). -/
def TradeOp.argsNonneg : TradeOp → Bool
  | .buy _ _ p s => decide (0 ≤ p) && decide (0 ≤ s)
  | .sell _ _ p s =>
    decide (0 ≤ p) &&
      (match s with
       | some n => decide (0 ≤ n)
       | none => true)

/-- Whether the portfolio holds an open position for the ticker (the
`has_position` check of the built-in strategies). -/
def hasOpen (pf : Portfolio) (t : String) : Bool :=
  pf.positions.any (fun p => p.ticker == t)

/-- One row of the pivoted price table. -/
structure PriceRow where
  date : ℤ
  close : List (String × ℚ)
deriving DecidableEq

/-- `df.loc[:trading_day]` on the monotone date index: every row up to and
including the label, none after it. -/
def locUpTo (df : List PriceRow) (d : ℤ) : List PriceRow :=
  df.takeWhile (fun r => decide (r.date ≤ d))

/-- Whether the pivot table has a `("close", t)` column: the ticker is
quoted in at least one loaded row. -/
def hasColumn (df : List PriceRow) (t : String) : Bool :=
  df.any (fun r => (r.close.lookup t).isSome)

/-- The `current_prices` dictionary built at a trading day.  A requested
ticker with no pivot column raises `KeyError`, which the bare `except`
catches and skips; a ticker whose column exists gets the day's quote, or
`Decimal('NaN')` (`none`) when the cell is empty — `Decimal('nan')` parses
fine, so the `except` never fires for it. -/
def currentPricesAt (df : List PriceRow) (row : PriceRow)
    (tickers : List String) : List (String × Option ℚ) :=
  tickers.filterMap
    (fun t => if hasColumn df t then some (t, row.close.lookup t) else none)

/-- Python `int(...)` on a Decimal: truncation toward zero. -/
def pyInt (q : ℚ) : ℤ :=
  if q < 0 then -(-q).floor else q.floor

/-- The signal dictionary returned by a strategy, in iteration order. -/
abbrev Signals := List (String × String)

/-- A strategy callable.  It may raise (`Except.error`); `BacktestEngine.run`
calls it without any surrounding `try`. -/
abbrev Strategy :=
  List PriceRow → Portfolio → List (String × Option ℚ) → Except String Signals

/-- One entry of `BacktestEngine._execute_signals`.  BUY computes
`shares = int(cash * 0.1 / price)`: a zero price raises
`decimal.DivisionByZero` at the division and a NaN price makes
`int(Decimal('NaN'))` raise `InvalidOperation`, both uncaught and both
before the `shares > 0` guard; otherwise the buy runs only when at least
one share fits.  SELL at a NaN price that finds an open position closes it
with NaN pnl and poisons cash — dooming the run to abort at the final
`get_statistics` comparison — which the model surfaces as the abort here;
a SELL at a NaN price with no open position returns `None` harmlessly.
Tickers absent from `current_prices` and other signal values are
skipped. -/
def executeSignal (pf : Portfolio) (d : ℤ)
    (current_prices : List (String × Option ℚ)) (ts : String × String) :
    Except String Portfolio :=
  match current_prices.lookup ts.1 with
  | none => Except.ok pf
  | some priceCell =>
    if ts.2 == "BUY" then
      match priceCell with
      | none => Except.error ("InvalidOperation")
      | some price =>
        if price = 0 then Except.error ("DivisionByZero")
        else
          let position_size := pf.cash * (1/10)
          let shares := pyInt (position_size / price)
          if 0 < shares then Except.ok ((pf.buy ts.1 d price shares).1)
          else Except.ok pf
    else if ts.2 == "SELL" then
      match priceCell with
      | none =>
        if ((pf.positions.find? (fun q => q.ticker == ts.1)).isSome) then
          Except.error ("InvalidOperation")
        else Except.ok pf
      | some price => Except.ok ((pf.sell ts.1 d price none).1)
    else Except.ok pf

/-- `get_total_value` as the engine evaluates it for the equity snapshot:
the current-price dictionary may hold `Decimal('NaN')` entries, and the
Decimal sum propagates a quiet NaN (`none`) without raising. -/
def Portfolio.get_total_value_quiet (pf : Portfolio)
    (current_prices : List (String × Option ℚ)) : Option ℚ :=
  pf.positions.foldl
    (fun acc p =>
      match current_prices.lookup p.ticker with
      | some cell =>
        match acc, cell with
        | some total, some price => some (total + p.get_value price)
        | _, _ => none
      | none => acc)
    (some pf.cash)

/-- One iteration of the trading-day loop of `BacktestEngine.run`: build the
current prices, call the strategy on the history up to and including the
day, execute the returned signals, and append the equity snapshot. -/
def dayStep (strategy : Strategy) (df : List PriceRow) (tickers : List String)
    (pf : Portfolio) (row : PriceRow) : Except String Portfolio := do
  let current_prices := currentPricesAt df row tickers
  let signals ← strategy (locUpTo df row.date) pf current_prices
  let pfT ← signals.foldlM
    (fun acc ts => executeSignal acc row.date current_prices ts) pf
  Except.ok
    { pfT with
      equity_curve := pfT.equity_curve ++
        [(row.date, pfT.get_total_value_quiet current_prices, pfT.cash,
          pfT.positions.length)] }

/-- The result dictionary assembled at the end of `BacktestEngine.run`
(equity curve and trade list live in the final portfolio). -/
structure BacktestResult where
  initial_capital : ℚ
  final_value : ℚ
  total_return : ℚ
  statistics : List (String × ℚ)
deriving DecidableEq

/-- `BacktestEngine.run`: empty data returns the empty result (`none`);
otherwise the day loop runs over every row, remaining positions are
liquidated at the last row's close prices with the requested end date, and
the report is assembled.  A strategy exception is not caught anywhere.
`final_prices` holds an entry for every requested ticker whose pivot
column exists — with `Decimal('NaN')` (`none`) when the last row has no
quote for it — so a still-open position in such a ticker is force-sold at
NaN, records a NaN pnl, and the immediately following `get_statistics`
raises `InvalidOperation`; the model surfaces that abort at the NaN
sell. -/
def BacktestEngine.run (strategy : Strategy) (tickers : List String)
    (initial_capital : ℚ) (commission_rate : ℚ) (df : List PriceRow)
    (end_date : ℤ) : Except String (Option BacktestResult) :=
  match df.getLast? with
  | none => Except.ok none
  | some lastRow => do
    let pf0 := Portfolio.init initial_capital commission_rate
    let pf ← df.foldlM (dayStep strategy df tickers) pf0
    let final_prices : List (String × Option ℚ) := tickers.filterMap
      (fun t => if hasColumn df t then some (t, lastRow.close.lookup t) else none)
    let pfFinal ← pf.positions.foldlM
      (fun acc p =>
        match final_prices.lookup p.ticker with
        | none => Except.ok acc
        | some (some price) => Except.ok ((acc.sell p.ticker end_date price none).1)
        | some none =>
          if ((acc.positions.find? (fun q => q.ticker == p.ticker)).isSome) then
            Except.error ("InvalidOperation")
          else Except.ok acc)
      pf
    let final_value := pfFinal.get_total_value []
    Except.ok (some
      { initial_capital := initial_capital,
        final_value := final_value,
        total_return := (final_value - initial_capital) / initial_capital,
        statistics := pfFinal.get_statistics })

/-! ### `simple_moving_average_strategy` of strategies.py

Pandas `NaN` entries of a series are modelled as `Option.none` elements;
every comparison against a `NaN` is false, which `cmpLE`/`cmpLT` reproduce.
Selecting an absent `("close", ticker)` column raises `KeyError`; the
strategy's per-ticker `try`/`except` catches it (and any other per-ticker
exception) and drops that ticker's signal. -/

/-- Comparison of two possibly-NaN values: false unless both are numbers. -/
def cmpLE (a b : Option ℚ) : Bool :=
  match a, b with
  | some x, some y => decide (x ≤ y)
  | _, _ => false

/-- Strict comparison of two possibly-NaN values. -/
def cmpLT (a b : Option ℚ) : Bool :=
  match a, b with
  | some x, some y => decide (x < y)
  | _, _ => false

/-- `data[("close", ticker)]`: the ticker's close series over the slice,
with `NaN` (`none`) on days without a quote; raises `KeyError` when the
ticker has no quote anywhere in the slice (no such pivot column). -/
def closeSeries (data : List PriceRow) (t : String) : Except String (List (Option ℚ)) :=
  if data.any (fun r => (r.close.lookup t).isSome) then
    Except.ok (data.map (fun r => r.close.lookup t))
  else Except.error ("KeyError")

/-- `series.rolling(window=w).mean()`: `NaN` for the first `w - 1` entries
and for any window containing a `NaN`. -/
def rollingMean (w : ℕ) (xs : List (Option ℚ)) : List (Option ℚ) :=
  (List.range xs.length).map
    (fun i =>
      if i + 1 < w then none
      else
        let window := (xs.drop (i + 1 - w)).take w
        if window.all Option.isSome then
          some ((window.filterMap id).sum / (w : ℚ))
        else none)

/-- The body of the per-ticker `try` block of
`simple_moving_average_strategy`: moving-average crossover on the ticker's
close series, `BUY`/`SELL`/no signal, honouring the `has_position` guard. -/
def sma_signal_for (data : List PriceRow) (pf : Portfolio) (t : String)
    (short_window : ℕ) (long_window : ℕ) : Except String (Option String) := do
  let close_prices ← closeSeries data t
  if close_prices.length < long_window then pure none
  else
    let short_ma := rollingMean short_window close_prices
    let long_ma := rollingMean long_window close_prices
    match short_ma.getLast?, long_ma.getLast? with
    | some curr_short, some curr_long =>
      let prev_short : Option (Option ℚ) :=
        if 1 < short_ma.length then short_ma.get? (short_ma.length - 2) else none
      let prev_long : Option (Option ℚ) :=
        if 1 < long_ma.length then long_ma.get? (long_ma.length - 2) else none
      match prev_short, prev_long with
      | some ps, some pl2 =>
        let has_position := hasOpen pf t
        if cmpLE ps pl2 && cmpLT curr_long curr_short then
          pure (if has_position then none else some ("BUY"))
        else if cmpLE pl2 ps && cmpLT curr_short curr_long then
          pure (if has_position then some ("SELL") else none)
        else pure none
      | _, _ => pure none
    | _, _ => Except.error ("IndexError")

/-- The signal dictionary `simple_moving_average_strategy` builds: one entry
per ticker of `current_prices` whose per-ticker block returns a signal; a
ticker whose block raises is logged and dropped (`except ... continue`). -/
def smaSignals (data : List PriceRow) (pf : Portfolio)
    (current_prices : List (String × Option ℚ)) (short_window : ℕ)
    (long_window : ℕ) : Signals :=
  if data.length < long_window then []
  else
    current_prices.filterMap
      (fun tp =>
        match sma_signal_for data pf tp.1 short_window long_window with
        | .ok (some sig) => some (tp.1, sig)
        | .ok none => none
        | .error _ => none)

/-- `simple_moving_average_strategy` as a strategy callable: it never raises
past its own body. -/
def simple_moving_average_strategy (short_window : ℕ) (long_window : ℕ) : Strategy :=
  fun data pf current_prices =>
    Except.ok (smaSignals data pf current_prices short_window long_window)

/-! ### Concrete fixtures for witnesses and counterexamples -/

/-- A portfolio whose closed history has one winning, one losing and one
zero-pnl trade. -/
def pfFixtureB : Portfolio :=
  { initial_capital := 1000, cash := 1000, commission_rate := 0,
    positions := [],
    closed_positions :=
      [{ Position.make ("W") 1 10 1 ("LONG") with pnl := some 5 },
       { Position.make ("L") 1 10 1 ("LONG") with pnl := some (-3) },
       { Position.make ("Z") 1 10 1 ("LONG") with pnl := some 0 }],
    equity_curve := [] }

/-- Three trading days of close quotes for one ticker. -/
def dfEx : List PriceRow :=
  [⟨1, [("AAA", 10)]⟩, ⟨2, [("AAA", 11)]⟩, ⟨3, [("AAA", 12)]⟩]

/-- A single trading day of close quotes for one ticker. -/
def dfEx1 : List PriceRow := [⟨1, [("AAA", 10)]⟩]

/-- Three days of closes 10, 4, 10: with windows 1 and 2 the last day is a
bullish crossover (previous short 4 ≤ previous long 7, current short 10 >
current long 7). -/
def dfB : List PriceRow :=
  [⟨1, [("AAA", 10)]⟩, ⟨2, [("AAA", 4)]⟩, ⟨3, [("AAA", 10)]⟩]

/-- A short sequence of calls with non-negative arguments. -/
def opsW : List TradeOp :=
  [.buy ("A") 1 10 2, .sell ("A") 2 5 none, .sell ("B") 3 1 (some 1)]

/-- C10: on a portfolio with initial capital 100,000,000 and commission rate
0.0015, buying 1,000 shares at price 95.5 succeeds and leaves cash exactly
100,000,000 − 95,500 − 143.25 = 99,904,356.75 — exact decimal arithmetic,
no drift. -/
theorem scenarioA_buy_exact_cash :
    (((Portfolio.init 100000000 (3/2000)).buy ("VCB") 0 (191/2) 1000).2).isSome = true ∧
    (((Portfolio.init 100000000 (3/2000)).buy ("VCB") 0 (191/2) 1000).1).cash
      = 100000000 - (95500 + 14325/100) ∧
    (((Portfolio.init 100000000 (3/2000)).buy ("VCB") 0 (191/2) 1000).1).cash
      = 9990435675/100 := by
  refine ⟨?_, ?_, ?_⟩ <;>
    · simp only [Portfolio.init, Portfolio.buy, Position.make]
      norm_num

/-- C5 counterexample: `Position.close` has no rejection path and a second
close with a different exit price overwrites the realized pnl recorded by
the first close (5 shares entered at 10: first close at 20 records pnl 50, a
second close at 30 rewrites it to 100). -/
theorem close_twice_changes_pnl :
    (((Position.make ("AAA") 1 10 5 ("LONG")).close 2 20).close 3 30).pnl
      ≠ ((Position.make ("AAA") 1 10 5 ("LONG")).close 2 20).pnl := by
  simp only [Position.make, Position.close]
  norm_num

/-- C5 amended: `Position.close` never rejects a second call; it recomputes
the exit fields and pnl from its arguments alone, so a repeated close
behaves exactly as if it were the first close with the new arguments — in
particular closing twice with the same arguments changes nothing, while a
second close with a different exit price overwrites the realized pnl. -/
theorem close_close (p : Position) (d1 d2 : ℤ) (x1 x2 : ℚ) :
    (p.close d1 x1).close d2 x2 = p.close d2 x2 := by
  rcases p with ⟨t, ed, ep, sh, pt, xd, xp, pn, pp⟩
  by_cases h : pt == "LONG" <;> simp [Position.close, h]

/-- C7 counterexample: with zero closed positions, `get_statistics` omits
the `total_pnl_pct` and `profit_factor` keys of the stable statistics set
altogether instead of returning them as zero. -/
theorem statistics_empty_missing_keys :
    (((Portfolio.init 1000 (3/2000)).get_statistics).lookup ("total_pnl_pct") = none) ∧
    (((Portfolio.init 1000 (3/2000)).get_statistics).lookup ("profit_factor") = none) := by
  constructor <;> simp [Portfolio.init, Portfolio.get_statistics, List.lookup]

/-- C7 amended: on a portfolio with zero closed positions `get_statistics`
returns, without raising and without NaN, exactly the eight fields
total_trades, winning_trades, losing_trades, win_rate, total_pnl, avg_pnl,
avg_win and avg_loss, each present with value zero; the remaining two
fields of the stable set, total_pnl_pct and profit_factor, are absent from
the zero-trade record. -/
theorem statistics_empty_all_zero (pf : Portfolio)
    (h : pf.closed_positions = []) :
    pf.get_statistics =
      [("total_trades", 0), ("winning_trades", 0), ("losing_trades", 0),
       ("win_rate", 0), ("total_pnl", 0), ("avg_pnl", 0), ("avg_win", 0),
       ("avg_loss", 0)] := by
  simp [Portfolio.get_statistics, h]

/-- Witness for C7's amended theorem at a freshly initialized portfolio. -/
theorem statistics_empty_all_zero_witness :
    (Portfolio.init 5 0).get_statistics =
      [("total_trades", 0), ("winning_trades", 0), ("losing_trades", 0),
       ("win_rate", 0), ("total_pnl", 0), ("avg_pnl", 0), ("avg_win", 0),
       ("avg_loss", 0)] :=
  statistics_empty_all_zero (Portfolio.init 5 0) rfl

theorem truthy_and_pos (o : Option ℚ) :
    (truthyQ o && decide (0 < o.getD 0)) = decide (0 < o.getD 0) := by
  rcases o with _ | v
  · simp [truthyQ]
  · rcases lt_trichotomy v 0 with h | h | h
    · simp [truthyQ, ne_of_lt h, not_lt_of_lt h]
    · simp [truthyQ, h]
    · simp [truthyQ, ne_of_gt h, h]

theorem truthy_and_nonpos (o : Option ℚ) :
    (truthyQ o && decide (o.getD 0 ≤ 0)) = decide (o.getD 0 < 0) := by
  rcases o with _ | v
  · simp [truthyQ]
  · rcases lt_trichotomy v 0 with h | h | h
    · simp [truthyQ, ne_of_lt h, le_of_lt h, h]
    · simp [truthyQ, h]
    · simp [truthyQ, ne_of_gt h, not_lt_of_lt h, not_le_of_lt h]

theorem filter_winning (l : List Position) :
    l.filter (fun p => truthyQ p.pnl && decide (0 < p.pnl.getD 0)) =
      l.filter (fun p => decide (0 < p.pnl.getD 0)) := by
  have hf : (fun p : Position => truthyQ p.pnl && decide (0 < p.pnl.getD 0)) =
      fun p : Position => decide (0 < p.pnl.getD 0) :=
    funext fun p => truthy_and_pos p.pnl
  rw [hf]

theorem filter_losing (l : List Position) :
    l.filter (fun p => truthyQ p.pnl && decide (p.pnl.getD 0 ≤ 0)) =
      l.filter (fun p => decide (p.pnl.getD 0 < 0)) := by
  have hf : (fun p : Position => truthyQ p.pnl && decide (p.pnl.getD 0 ≤ 0)) =
      fun p : Position => decide (p.pnl.getD 0 < 0) :=
    funext fun p => truthy_and_nonpos p.pnl
  rw [hf]

theorem length_filter_pnl_partition (l : List Position) :
    (l.filter (fun p => decide (0 < p.pnl.getD 0))).length +
      (l.filter (fun p => decide (p.pnl.getD 0 < 0))).length +
      (l.filter (fun p => decide (p.pnl.getD 0 = 0))).length = l.length := by
  induction l with
  | nil => rfl
  | cons p rest ih =>
    rcases lt_trichotomy (p.pnl.getD 0) 0 with h | h | h
    · simp only [List.filter_cons, decide_eq_true_eq]
      rw [if_neg (by simp [not_lt_of_lt h]), if_pos (by simp [h]),
        if_neg (by simp [ne_of_lt h])]
      simp only [List.length_cons]
      omega
    · simp only [List.filter_cons, decide_eq_true_eq]
      rw [if_neg (by simp [h]), if_neg (by simp [h]), if_pos (by simp [h])]
      simp only [List.length_cons]
      omega
    · simp only [List.filter_cons, decide_eq_true_eq]
      rw [if_pos (by simp [h]), if_neg (by simp [not_lt_of_lt h]),
        if_neg (by simp [ne_of_gt h])]
      simp only [List.length_cons]
      omega

/-- C8 amended: on a non-empty closed history `get_statistics` counts as
winning_trades exactly the closed positions with pnl strictly positive and
as losing_trades exactly those with pnl strictly negative — the Python
truthiness test `if p.pnl` silently drops positions whose pnl is exactly
zero from both buckets, so winning + losing + zero-pnl = total rather than
winning + losing = total. -/
theorem statistics_counts (pf : Portfolio) (h : pf.closed_positions ≠ []) :
    (pf.get_statistics).lookup ("total_trades") =
        some ((pf.closed_positions.length : ℚ)) ∧
      (pf.get_statistics).lookup ("winning_trades") =
        some (((pf.closed_positions.filter
          (fun p => decide (0 < p.pnl.getD 0))).length : ℚ)) ∧
      (pf.get_statistics).lookup ("losing_trades") =
        some (((pf.closed_positions.filter
          (fun p => decide (p.pnl.getD 0 < 0))).length : ℚ)) ∧
      (pf.closed_positions.filter (fun p => decide (0 < p.pnl.getD 0))).length +
        (pf.closed_positions.filter (fun p => decide (p.pnl.getD 0 < 0))).length +
        (pf.closed_positions.filter (fun p => decide (p.pnl.getD 0 = 0))).length =
        pf.closed_positions.length := by
  have hne : pf.closed_positions.isEmpty = false := by
    simpa [List.isEmpty_iff] using h
  refine ⟨?_, ?_, ?_, length_filter_pnl_partition _⟩ <;>
    simp [Portfolio.get_statistics, hne, List.lookup, filter_winning, filter_losing]

/-- Witness for C8's amended theorem on a history with one winner, one loser
and one zero-pnl trade. -/
theorem statistics_counts_witness :
    (pfFixtureB.get_statistics).lookup ("total_trades") =
        some ((pfFixtureB.closed_positions.length : ℚ)) ∧
      (pfFixtureB.get_statistics).lookup ("winning_trades") =
        some (((pfFixtureB.closed_positions.filter
          (fun p => decide (0 < p.pnl.getD 0))).length : ℚ)) ∧
      (pfFixtureB.get_statistics).lookup ("losing_trades") =
        some (((pfFixtureB.closed_positions.filter
          (fun p => decide (p.pnl.getD 0 < 0))).length : ℚ)) ∧
      (pfFixtureB.closed_positions.filter (fun p => decide (0 < p.pnl.getD 0))).length +
        (pfFixtureB.closed_positions.filter (fun p => decide (p.pnl.getD 0 < 0))).length +
        (pfFixtureB.closed_positions.filter (fun p => decide (p.pnl.getD 0 = 0))).length =
        pfFixtureB.closed_positions.length :=
  statistics_counts pfFixtureB (by simp [pfFixtureB])

/-- C8 counterexample: one round trip at an unchanged price leaves a single
closed position with pnl exactly zero; `get_statistics` then reports one
total trade but zero winning and zero losing trades, so a zero-pnl trade is
not counted as a loss and the bucket counts do not add up to the total. -/
theorem statistics_zero_pnl_in_neither_bucket :
    ((((Portfolio.init 1000 0).buy ("A") 1 10 1).1.sell ("A") 2 10
        none).1.get_statistics).lookup ("total_trades") = some 1 ∧
      ((((Portfolio.init 1000 0).buy ("A") 1 10 1).1.sell ("A") 2 10
        none).1.get_statistics).lookup ("winning_trades") = some 0 ∧
      ((((Portfolio.init 1000 0).buy ("A") 1 10 1).1.sell ("A") 2 10
        none).1.get_statistics).lookup ("losing_trades") = some 0 := by
  refine ⟨?_, ?_, ?_⟩ <;>
    · simp only [Portfolio.init, Portfolio.buy, Portfolio.sell, Position.make,
        Position.close, sharesToSell, removeFirstTicker, Portfolio.get_statistics,
        truthyQ]
      norm_num [List.lookup]
      try decide

/-- Removing the first position for a ticker only deletes elements. -/
theorem mem_removeFirstTicker {q : Position} {ps : List Position} {t : String}
    (h : q ∈ removeFirstTicker ps t) : q ∈ ps := by
  induction ps with
  | nil => exact absurd h (by simp [removeFirstTicker])
  | cons p rest ih =>
    by_cases hp : p.ticker == t
    · simp only [removeFirstTicker, hp, if_true] at h
      exact List.mem_cons_of_mem _ h
    · simp only [removeFirstTicker, hp, Bool.false_eq_true, if_false,
        List.mem_cons] at h
      rcases h with h | h
      · exact h ▸ List.mem_cons_self _ _
      · exact List.mem_cons_of_mem _ (ih h)

/-- The inductive invariant behind the cash-nonnegativity claim: cash is
non-negative, every open position has a non-negative share count, and the
commission rate lies in [0, 1]. -/
def StepInv (pf : Portfolio) : Prop :=
  0 ≤ pf.cash ∧ (∀ p ∈ pf.positions, 0 ≤ p.shares) ∧
    0 ≤ pf.commission_rate ∧ pf.commission_rate ≤ 1

/-- Each buy/sell call with non-negative arguments preserves the
invariant. -/
theorem stepInv_applyOp {pf : Portfolio} {op : TradeOp}
    (hinv : StepInv pf) (hop : op.argsNonneg = true) :
    StepInv (applyOp pf op) := by
  obtain ⟨hcash, hshares, hr0, hr1⟩ := hinv
  cases op with
  | buy t d p s =>
    simp only [TradeOp.argsNonneg, Bool.and_eq_true, decide_eq_true_eq] at hop
    obtain ⟨hp, hs⟩ := hop
    simp only [applyOp, Portfolio.buy]
    by_cases hc : p * (s : ℚ) + p * (s : ℚ) * pf.commission_rate > pf.cash
    · rw [if_pos hc]
      exact ⟨hcash, hshares, hr0, hr1⟩
    · rw [if_neg hc]
      refine ⟨by simp; linarith [not_lt.mp hc], ?_, hr0, hr1⟩
      intro q hq
      simp only [List.mem_append, List.mem_singleton] at hq
      rcases hq with hq | hq
      · exact hshares q hq
      · simp [hq, Position.make, hs]
  | sell t d p sh =>
    simp only [TradeOp.argsNonneg, Bool.and_eq_true, decide_eq_true_eq] at hop
    obtain ⟨hp, hs⟩ := hop
    simp only [applyOp, Portfolio.sell]
    rcases hfind : pf.positions.find? (fun q => q.ticker == t) with _ | pos
    · rw [hfind]
      exact ⟨hcash, hshares, hr0, hr1⟩
    · have hposmem : pos ∈ pf.positions := List.mem_of_find?_eq_some hfind
      have hpos : 0 ≤ pos.shares := hshares pos hposmem
      rw [hfind]
      simp only
      by_cases hgt : sharesToSell sh pos > pos.shares
      · rw [if_pos hgt]
        exact ⟨hcash, hshares, hr0, hr1⟩
      · rw [if_neg hgt]
        have hsts : 0 ≤ sharesToSell sh pos := by
          cases sh with
          | none => simpa [sharesToSell] using hpos
          | some m =>
            simp only [sharesToSell]
            by_cases hm : m == 0
            · simpa [hm] using hpos
            · simp only [hm, Bool.false_eq_true, if_false]
              exact of_decide_eq_true (by simpa using hs)
        refine ⟨?_, ?_, hr0, hr1⟩
        · simp only
          have hnn : 0 ≤ p * ((sharesToSell sh pos : ℤ) : ℚ) * (1 - pf.commission_rate) := by
            apply mul_nonneg (mul_nonneg hp ?_) (by linarith)
            exact_mod_cast hsts
          nlinarith [hnn]
        · intro q hq
          simp only at hq
          exact hshares q (mem_removeFirstTicker hq)

/-- C1: starting from any non-negative initial capital and a commission
rate in [0, 1], cash stays non-negative after every sequence of buy/sell
calls whose price and share arguments are non-negative (hence after every
call of such a sequence, since its prefixes satisfy the same hypotheses). -/
theorem cash_nonneg_after_ops (c r : ℚ) (ops : List TradeOp)
    (hc : 0 ≤ c) (hr0 : 0 ≤ r) (hr1 : r ≤ 1)
    (hops : ∀ op ∈ ops, op.argsNonneg = true) :
    0 ≤ (applyOps (Portfolio.init c r) ops).cash := by
  have key : ∀ (l : List TradeOp) (pf : Portfolio), StepInv pf →
      (∀ op ∈ l, op.argsNonneg = true) → StepInv (applyOps pf l) := by
    intro l
    induction l with
    | nil => exact fun pf h _ => h
    | cons op rest ih =>
      intro pf hinv hl
      have h1 : StepInv (applyOp pf op) :=
        stepInv_applyOp hinv (hl op (List.mem_cons_self _ _))
      have h2 := ih (applyOp pf op) h1
        (fun o ho => hl o (List.mem_cons_of_mem _ ho))
      simpa [applyOps, List.foldl_cons] using h2
  exact (key ops (Portfolio.init c r)
    ⟨hc, by simp [Portfolio.init], hr0, hr1⟩ hops).1

/-- Witness for C1 on a concrete three-call sequence. -/
theorem cash_nonneg_after_ops_witness :
    0 ≤ (applyOps (Portfolio.init 100 (1/2)) opsW).cash :=
  cash_nonneg_after_ops 100 (1/2) opsW (by norm_num) (by norm_num) (by norm_num)
    (by intro op hop; fin_cases hop <;> simp [TradeOp.argsNonneg])

/-- On a date-sorted price table, the `loc[:d]` slice contains exactly the
rows dated at most `d`. -/
theorem mem_locUpTo (df : List PriceRow) (d : ℤ)
    (hs : List.Pairwise (fun a b => a.date < b.date) df) (r : PriceRow) :
    r ∈ locUpTo df d ↔ r ∈ df ∧ r.date ≤ d := by
  induction df with
  | nil => simp [locUpTo]
  | cons x rest ih =>
    rcases List.pairwise_cons.mp hs with ⟨hx, hrest⟩
    by_cases hxd : x.date ≤ d
    · simp only [locUpTo, List.takeWhile_cons, decide_eq_true_eq, hxd, if_pos,
        List.mem_cons]
      constructor
      · rintro (hr | hr)
        · exact ⟨Or.inl hr, hr ▸ hxd⟩
        · have := (ih hrest).mp (by simpa [locUpTo] using hr)
          exact ⟨Or.inr this.1, this.2⟩
      · rintro ⟨hr | hr, hrd⟩
        · exact Or.inl hr
        · exact Or.inr (by simpa [locUpTo] using (ih hrest).mpr ⟨hr, hrd⟩)
    · simp only [locUpTo, List.takeWhile_cons]
      rw [if_neg (by simpa using hxd)]
      simp only [List.not_mem_nil, false_iff, not_and, List.mem_cons]
      rintro (hr | hr)
      · exact fun hrd => hxd (hr ▸ hrd)
      · exact fun hrd => hxd (le_of_lt (lt_of_lt_of_le (hx r hr) hrd))

/-- C3: for every trading day `d` of the loaded table, the history slice
the engine passes to the strategy in `dayStep` — `locUpTo df d`, the model
of `df.loc[:trading_day]` — contains the row of day `d` itself and consists
of exactly the loaded rows dated at most `d`: no future row ever reaches
the strategy. -/
theorem engine_slice_no_lookahead (df : List PriceRow) (d : ℤ)
    (hs : List.Pairwise (fun a b => a.date < b.date) df)
    (hd : ∃ row ∈ df, row.date = d) :
    (∃ row ∈ locUpTo df d, row.date = d) ∧
      (∀ r, r ∈ locUpTo df d ↔ (r ∈ df ∧ r.date ≤ d)) := by
  rcases hd with ⟨row, hrow, hdate⟩
  exact ⟨⟨row, (mem_locUpTo df d hs row).mpr ⟨hrow, le_of_eq hdate⟩, hdate⟩,
    fun r => mem_locUpTo df d hs r⟩

/-- Witness for C3 on a three-day table sliced at its middle day. -/
theorem engine_slice_no_lookahead_witness :
    (∃ row ∈ locUpTo dfEx 2, row.date = 2) ∧
      (∀ r, r ∈ locUpTo dfEx 2 ↔ (r ∈ dfEx ∧ r.date ≤ 2)) :=
  engine_slice_no_lookahead dfEx 2
    (by simp [dfEx])
    ⟨⟨2, [("AAA", 11)]⟩, by simp [dfEx], rfl⟩

/-- C6 counterexample: `BacktestEngine.run` wraps the strategy call in no
`try`, so a strategy that raises on the first trading day aborts the whole
run with that exception instead of dropping the day's signals and
completing. -/
theorem run_aborts_on_strategy_exception :
    BacktestEngine.run (fun _ _ _ => Except.error ("boom")) [("AAA")] 1000 0 dfEx1 1
      = Except.error ("boom") := rfl

/-- C6 amended: the engine has no `try` around the strategy call, so an
exception the Strategy callable raises for a trading day propagates out of
the day loop and aborts the whole run with that exception — the signal is
not dropped and no result is produced.  The drop-and-continue policy lives
only inside the built-in strategies: every signal
`simple_moving_average_strategy` returns comes from a per-ticker block that
returned normally, so a ticker whose block raises has its signal for that
day dropped while the other tickers' signals are kept. -/
theorem strategy_exception_aborts_run :
    (∀ (strategy : Strategy) (tickers : List String) (c r : ℚ) (ed : ℤ)
        (row0 : PriceRow) (rest : List PriceRow) (e : String),
        strategy (locUpTo (row0 :: rest) row0.date) (Portfolio.init c r)
            (currentPricesAt (row0 :: rest) row0 tickers) = Except.error e →
        BacktestEngine.run strategy tickers c r (row0 :: rest) ed =
          Except.error e) ∧
      (∀ (data : List PriceRow) (pf : Portfolio)
          (cp : List (String × Option ℚ)) (sw lw : ℕ) (t s : String),
          (t, s) ∈ smaSignals data pf cp sw lw →
          sma_signal_for data pf t sw lw = Except.ok (some s)) := by
  constructor
  · intro strategy tickers c r ed row0 rest e hs
    have hday : dayStep strategy (row0 :: rest) tickers (Portfolio.init c r)
        row0 = Except.error e := by
      simp only [dayStep]
      rw [hs]
      rfl
    rw [BacktestEngine.run]
    rcases hlast : (row0 :: rest).getLast? with _ | lastRow
    · exact absurd hlast (by simp)
    · simp only [List.foldlM_cons, hday]
      rfl
  · intro data pf cp sw lw t s h
    simp only [smaSignals] at h
    by_cases hlen : data.length < lw
    · rw [if_pos hlen] at h
      cases h
    · rw [if_neg hlen] at h
      rcases List.mem_filterMap.mp h with ⟨tp, htp, hf⟩
      rcases hsig : sma_signal_for data pf tp.1 sw lw with e | osig
      · rw [hsig] at hf
        cases hf
      · rw [hsig] at hf
        rcases osig with _ | sig
        · cases hf
        · injection hf with hf
          rw [Prod.mk.injEq] at hf
          rw [← hf.1, ← hf.2]
          exact hsig

set_option maxHeartbeats 2000000 in
/-- Witness for C6's amended theorem: a first-day exception propagates out
of a three-day run, and the bullish-crossover signal the moving-average
strategy emits on `dfB` comes from a per-ticker block that returned
normally. -/
theorem strategy_exception_aborts_run_witness :
    BacktestEngine.run (fun _ _ _ => Except.error ("exc")) [("AAA")] 1000 0
        dfEx 7 = Except.error ("exc") ∧
      sma_signal_for dfB (Portfolio.init 1000 0) ("AAA") 1 2 =
        Except.ok (some ("BUY")) :=
  ⟨strategy_exception_aborts_run.1 (fun _ _ _ => Except.error ("exc"))
      [("AAA")] 1000 0 7 ⟨1, [("AAA", 10)]⟩
      [⟨2, [("AAA", 11)]⟩, ⟨3, [("AAA", 12)]⟩] ("exc") rfl,
    strategy_exception_aborts_run.2 dfB (Portfolio.init 1000 0)
      [(("AAA"), some 10)] 1 2 ("AAA") ("BUY")
      (by norm_num [smaSignals, sma_signal_for, closeSeries, rollingMean,
        cmpLE, cmpLT, hasOpen, Portfolio.init, dfB, List.range,
        List.range.loop, List.lookup, List.getLast?, bind, Except.bind, pure,
        Except.pure, List.filterMap_cons, List.sum_cons])⟩

end QuantStock
